import Mathlib

/-!
# Verification of the item-catalog service

A shallow embedding of the Go catalog service (three evolutionary
generations: the earliest flat-file version, the middle flat-file version,
and the relational version), together with theorems settling the
specification claims about it.

Conventions:
* Machine bytes and 32-bit words are `Nat` with explicit reduction
  modulo `2 ^ 32` where the Go code relies on wrap-around.
* Go strings are Lean `String`; `[]byte(s)` is the UTF-8 encoding.
* Fallible operations return explicit result types; file-system and
  database health is modelled by explicit flags on the store states.
-/

namespace Catalog

/-! ## Byte-level helpers: UTF-8, hex -/

/-- Concatenating map over a list, used for byte-level encodings. -/
def concatMap (f : α → List β) : List α → List β
  | [] => []
  | a :: l => f a ++ concatMap f l

/-- UTF-8 encoding of a single character, as `Nat` byte values
(embeds the Go byte view of a string element). -/
def utf8EncodeChar (c : Char) : List Nat :=
  let n := c.toNat
  if n < 128 then [n]
  else if n < 2048 then [192 + n / 64, 128 + n % 64]
  else if n < 65536 then
    [224 + n / 4096, 128 + (n / 64) % 64, 128 + n % 64]
  else
    [240 + n / 262144, 128 + (n / 4096) % 64, 128 + (n / 64) % 64, 128 + n % 64]

/-- The UTF-8 bytes of a string: the embedding of the Go expression `[]byte(s)`. -/
def utf8Bytes (s : String) : List Nat :=
  concatMap utf8EncodeChar s.data

/-- Lowercase hexadecimal digit for a value below 16. -/
def hexDigit (n : Nat) : Char :=
  if n < 10 then Char.ofNat (48 + n) else Char.ofNat (87 + n)

/-- Two lowercase hex digits of one byte. -/
def byteHex (b : Nat) : List Char :=
  [hexDigit (b / 16), hexDigit (b % 16)]

/-- Lowercase hex encoding of a byte sequence: the embedding of the Go
format verb x applied to a byte array by `fmt.Sprintf`. -/
def bytesHex (bs : List Nat) : String :=
  String.mk (concatMap byteHex bs)

/-! ## SHA-256 (embedding of `Sum256` from crypto/sha256)

All words are `Nat` reduced modulo `2 ^ 32`. -/

/-- Reduce to a 32-bit word. -/
def w32 (n : Nat) : Nat := n % 4294967296

/-- Right rotation of a 32-bit word by `n` bits. -/
def rotr (n x : Nat) : Nat := w32 ((x >>> n) ||| (x <<< (32 - n)))

/-- Bitwise complement of a 32-bit word. -/
def notW (x : Nat) : Nat := x ^^^ 4294967295

def bigSigma0 (x : Nat) : Nat := rotr 2 x ^^^ rotr 13 x ^^^ rotr 22 x

def bigSigma1 (x : Nat) : Nat := rotr 6 x ^^^ rotr 11 x ^^^ rotr 25 x

def smallSigma0 (x : Nat) : Nat := rotr 7 x ^^^ rotr 18 x ^^^ (x >>> 3)

def smallSigma1 (x : Nat) : Nat := rotr 17 x ^^^ rotr 19 x ^^^ (x >>> 10)

def chFn (x y z : Nat) : Nat := (x &&& y) ^^^ (notW x &&& z)

def majFn (x y z : Nat) : Nat := (x &&& y) ^^^ (x &&& z) ^^^ (y &&& z)

/-- The SHA-256 round constants. -/
def sha256K : List Nat :=
  [1116352408, 1899447441, 3049323471,
   3921009573, 961987163, 1508970993,
   2453635748, 2870763221, 3624381080,
   310598401, 607225278, 1426881987,
   1925078388, 2162078206, 2614888103,
   3248222580, 3835390401, 4022224774,
   264347078, 604807628, 770255983,
   1249150122, 1555081692, 1996064986,
   2554220882, 2821834349, 2952996808,
   3210313671, 3336571891, 3584528711,
   113926993, 338241895, 666307205,
   773529912, 1294757372, 1396182291,
   1695183700, 1986661051, 2177026350,
   2456956037, 2730485921, 2820302411,
   3259730800, 3345764771, 3516065817,
   3600352804, 4094571909, 275423344,
   430227734, 506948616, 659060556,
   883997877, 958139571, 1322822218,
   1537002063, 1747873779, 1955562222,
   2024104815, 2227730452, 2361852424,
   2428436474, 2756734187, 3204031479,
   3329325298]

/-- The eight SHA-256 working variables. -/
structure Hash8 where
  a : Nat
  b : Nat
  c : Nat
  d : Nat
  e : Nat
  f : Nat
  g : Nat
  h : Nat
deriving Repr, DecidableEq

/-- The SHA-256 initial hash value. -/
def sha256H0 : Hash8 :=
  ⟨1779033703, 3144134277, 1013904242,
   2773480762, 1359893119, 2600822924,
   528734635, 1541459225⟩

/-- Big-endian bytes of a number, `k` bytes wide. -/
def beBytes (k n : Nat) : List Nat :=
  match k with
  | 0 => []
  | k + 1 => beBytes k (n / 256) ++ [n % 256]

/-- Group four big-endian bytes into 32-bit words. -/
def toWords : List Nat → List Nat
  | b0 :: b1 :: b2 :: b3 :: rest =>
    (((b0 * 256 + b1) * 256 + b2) * 256 + b3) :: toWords rest
  | _ => []

/-- SHA-256 padding: append the 1 bit, zeros, and the 64-bit big-endian
message bit length, reaching a multiple of 64 bytes. -/
def padMessage (msg : List Nat) : List Nat :=
  let r := msg.length % 64
  let zeros := (119 - r) % 64
  msg ++ [128] ++ List.replicate zeros 0 ++ beBytes 8 (msg.length * 8)

/-- Split a byte list into 64-byte blocks. -/
def chunk64 (l : List Nat) : List (List Nat) :=
  if h : l = [] then []
  else l.take 64 :: chunk64 (l.drop 64)
termination_by l.length
decreasing_by
  simp only [List.length_drop]
  have : l.length ≠ 0 := fun hn => h (List.eq_nil_of_length_eq_zero hn)
  omega

/-- Extend the sixteen message words to the 64-entry schedule. -/
def msgSchedule (w16 : List Nat) : List Nat :=
  (List.range 48).foldl
    (fun ws _ =>
      let n := ws.length
      ws ++ [w32 (smallSigma1 (ws.getD (n - 2) 0) + ws.getD (n - 7) 0 +
        smallSigma0 (ws.getD (n - 15) 0) + ws.getD (n - 16) 0)])
    w16

/-- One SHA-256 compression round. -/
def sha256Round (st : Hash8) (kw : Nat × Nat) : Hash8 :=
  let t1 := w32 (st.h + bigSigma1 st.e + chFn st.e st.f st.g + kw.1 + kw.2)
  let t2 := w32 (bigSigma0 st.a + majFn st.a st.b st.c)
  ⟨w32 (t1 + t2), st.a, st.b, st.c, w32 (st.d + t1), st.e, st.f, st.g⟩

/-- Process one 64-byte block. -/
def processBlock (st : Hash8) (block : List Nat) : Hash8 :=
  let ws := msgSchedule (toWords block)
  let t := (sha256K.zip ws).foldl sha256Round st
  ⟨w32 (st.a + t.a), w32 (st.b + t.b), w32 (st.c + t.c), w32 (st.d + t.d),
   w32 (st.e + t.e), w32 (st.f + t.f), w32 (st.g + t.g), w32 (st.h + t.h)⟩

/-- SHA-256 digest (32 bytes) of a byte sequence: the embedding of the Go function
`sha256.Sum256`. -/
def sha256 (msg : List Nat) : List Nat :=
  let st := (chunk64 (padMessage msg)).foldl processBlock sha256H0
  beBytes 4 st.a ++ beBytes 4 st.b ++ beBytes 4 st.c ++ beBytes 4 st.d ++
  beBytes 4 st.e ++ beBytes 4 st.f ++ beBytes 4 st.g ++ beBytes 4 st.h

/-- The content-address used by every generation for an uploaded image:
lowercase hex of the SHA-256 of the UTF-8 bytes of the original filename.
Embeds the expression `fmt.Sprintf` with the x verb applied to
`sha256.Sum256([]byte(image.Filename))`. -/
def hashHex (filename : String) : String :=
  bytesHex (sha256 (utf8Bytes filename))

/-! ## Go `path` package: `Ext`, `Clean`, `Join` -/

/-- The characters of the literal `".jpg"`. -/
def jpgExt : List Char := ['.', 'j', 'p', 'g']

/-- Embedding of Go `strings.HasSuffix(s, ".jpg")`. -/
def endsWithJpg (s : String) : Bool :=
  jpgExt.isSuffixOf s.data

/-- Scan a reversed path for its extension: stop at a slash with no
extension, return the suffix from the final dot of the last element.
`acc` carries the characters already passed, in forward order. -/
def extLoop : List Char → List Char → List Char
  | _, [] => []
  | acc, c :: rest =>
    if c = '/' then []
    else if c = '.' then c :: acc
    else extLoop (c :: acc) rest

/-- Embedding of Go `path.Ext`: the suffix beginning at the final dot in
the final slash-separated element, empty if there is no dot. -/
def pathExt (s : String) : String :=
  String.mk (extLoop [] s.data.reverse)

/-- Split a character list into its slash-separated segments. -/
def splitSegs : List Char → List (List Char)
  | [] => [[]]
  | c :: rest =>
    match splitSegs rest with
    | [] => [[c]]
    | s :: ss => if c = '/' then [] :: s :: ss else (c :: s) :: ss

/-- Process path segments against a stack, resolving `.` and `..`
exactly as Go `path.Clean` does (a leading `..` is kept for relative
paths and dropped for rooted ones). -/
def processSegs (rooted : Bool) : List (List Char) → List (List Char) → List (List Char)
  | stack, [] => stack.reverse
  | stack, seg :: rest =>
    if seg = [] ∨ seg = ['.'] then processSegs rooted stack rest
    else if seg = ['.', '.'] then
      match stack with
      | [] => if rooted then processSegs rooted [] rest
              else processSegs rooted [seg] rest
      | top :: stack2 =>
        if top = ['.', '.'] then processSegs rooted (seg :: stack) rest
        else processSegs rooted stack2 rest
    else processSegs rooted (seg :: stack) rest

/-- Join segments back with slashes. -/
def joinSegs : List (List Char) → List Char
  | [] => []
  | [s] => s
  | s :: rest => s ++ '/' :: joinSegs rest

/-- Whether a path is rooted (starts with a slash). -/
def rootedStart : List Char → Bool
  | '/' :: _ => true
  | _ => false

/-- Embedding of Go `path.Clean`. -/
def pathClean (p : String) : String :=
  let cs := p.data
  let rooted := rootedStart cs
  let body := joinSegs (processSegs rooted [] (splitSegs cs))
  if rooted then String.mk ('/' :: body)
  else if body = [] then "."
  else String.mk body

/-- Embedding of Go `path.Join` on two elements: empty elements are
skipped and the result is cleaned. -/
def pathJoin (a b : String) : String :=
  if a = "" ∧ b = "" then ""
  else if a = "" then pathClean b
  else if b = "" then pathClean a
  else pathClean (a ++ "/" ++ b)

/-! ## SQLite `LIKE` matching

The default `LIKE` of SQLite is case-insensitive for ASCII; `%` matches any
sequence, `_` matches exactly one character, and there is no escape. -/

/-- Lowercase an ASCII letter, identity otherwise. -/
def asciiLower (c : Char) : Char :=
  if 65 ≤ c.toNat ∧ c.toNat ≤ 90 then Char.ofNat (c.toNat + 32) else c

/-- SQLite `LIKE` pattern matching over characters. -/
def likeMatch : List Char → List Char → Bool
  | [], [] => true
  | [], _ :: _ => false
  | p :: ps, t =>
    if p = '%' then
      likeMatch ps t ||
        (match t with
         | [] => false
         | _ :: ts => likeMatch (p :: ps) ts)
    else
      match t with
      | [] => false
      | c :: ts =>
        if p = '_' then likeMatch ps ts
        else (asciiLower p = asciiLower c) && likeMatch ps ts
termination_by p t => (p.length, t.length)

/-! ## Decimal printing (`strconv.Itoa` is `Nat.repr`)

A structurally recursive decimal printer, proved equal to the fuel-based
`Nat.repr` of core, which yields injectivity of `Nat.repr`. -/

/-- Structural decimal representation of a natural number. -/
def decRepr (n : Nat) : List Char :=
  if _h : n < 10 then [Nat.digitChar n]
  else decRepr (n / 10) ++ [Nat.digitChar (n % 10)]
decreasing_by
  exact Nat.div_lt_self (by omega) (by omega)

/-- Value of a decimal digit string. -/
def decVal (l : List Char) : Nat :=
  l.foldl (fun a c => a * 10 + (c.toNat - 48)) 0


/-! ## Data model -/

/-- A catalog entry of the flat-file generations. -/
structure Item where
  name : String
  category : String
  imageFileName : String
deriving Repr, DecidableEq

/-- A row of the items table of the relational generation. -/
structure DBItem where
  id : Nat
  name : String
  category : String
  imageFileName : String
deriving Repr, DecidableEq

/-- A handler outcome: either a payload (HTTP 200) or an error status. -/
inductive HResult (α : Type) where
  | ok (val : α)
  | err (status : Nat)
deriving Repr, DecidableEq

/-- Outcome of the persistence half of an add. -/
inductive AddResult (σ : Type) where
  | ok (s : σ)
  | invalidExt
  | storage
deriving Repr, DecidableEq

/-- The parsed view of items.json. `parsed = none` models a document
that `json.Unmarshal` rejects (for instance an empty file); the code
ignores the unmarshal error, leaving the zero value, the empty list. -/
structure FlatFileJson where
  parsed : Option (List Item)
deriving Repr, DecidableEq

/-- The items the service sees in a flat file. -/
def FlatFileJson.items (f : FlatFileJson) : List Item :=
  f.parsed.getD []

/-- State of the flat items.json store. `file = none` models `os.Open`
failing (the file is absent); `readOk` models whether `ReadAll`
succeeds; `writeOk` whether `WriteFile` succeeds. -/
structure FlatStore where
  file : Option FlatFileJson
  readOk : Bool
  writeOk : Bool
deriving Repr, DecidableEq

/-- A path-to-bytes map; later bindings shadow earlier ones. -/
abbrev FileMap := List (String × List Nat)

/-- State of the image directory. The three flags model the three
failure points of saveImageToLocal: opening the uploaded part, creating
the destination file, and copying the bytes. -/
structure ImgStore where
  files : FileMap
  srcOpenOk : Bool
  createOk : Bool
  copyOk : Bool
deriving Repr, DecidableEq

/-- State of the sqlite items table of the relational generation.
`openOk` models `sql.Open` plus the CREATE TABLE preparation; the
remaining flags the INSERT, SELECT query, and row scan. -/
structure DBStore where
  openOk : Bool
  insertOk : Bool
  queryOk : Bool
  scanOk : Bool
  rows : List DBItem
  nextId : Nat
deriving Repr, DecidableEq

/-- Whole state visible to the relational generation: it still keeps an
items.json next to the database and the image directory. -/
structure SysV3 where
  json : FlatStore
  db : DBStore
  imgs : ImgStore
deriving Repr, DecidableEq

/-- An already-parsed add request. `image = none` models `c.FormFile`
failing; otherwise it carries the original filename and the bytes. -/
structure AddRequest where
  name : String
  category : String
  image : Option (String × List Nat)
deriving Repr, DecidableEq

/-! ## Image store operations (identical in all three generations) -/

/-- The path under which saveImageToLocal writes a blob:
`path.Join(ImgDirRelative, fmt.Sprintf(x-verb + ".jpg", hash))`. -/
def savePath (filename : String) : String :=
  pathJoin "../images" (hashHex filename ++ ".jpg")

/-- Embedding of saveImageToLocal: best-effort, all failures are only
logged. `os.Create` truncates before the copy, so a failing copy leaves
an empty destination file. -/
def saveImageToLocal (filename : String) (bytes : List Nat) (g : ImgStore) : ImgStore :=
  if ¬ g.srcOpenOk then g
  else if ¬ g.createOk then g
  else if ¬ g.copyOk then { g with files := (savePath filename, []) :: g.files }
  else { g with files := (savePath filename, bytes) :: g.files }

/-- Embedding of getImg: joins the requested name under the image
directory, rejects joined paths that do not end in ".jpg", substitutes
default.jpg when the stat fails, and serves the resulting file (the
framework returns 404 if even that file is missing). -/
def getImg (param : String) (fs : FileMap) : HResult (List Nat) :=
  let imgPath := pathJoin "images" param
  if ¬ (jpgExt.isSuffixOf imgPath.data) then .err 400
  else
    let path2 := match fs.lookup imgPath with
      | some _ => imgPath
      | none => pathJoin "images" "default.jpg"
    match fs.lookup path2 with
    | some bytes => .ok bytes
    | none => .err 404

/-! ## Earliest generation (flat file, no validation) -/

/-- Embedding of updateJson from the earliest generation: no extension
check, every failure is logged and swallowed, the item is appended with
the content-addressed image name and the document rewritten. -/
def updateJsonV1 (name category filename : String) (s : FlatStore) : FlatStore :=
  match s.file with
  | none => s
  | some f =>
    if s.readOk then
      if s.writeOk then
        { s with file := some ⟨some (f.items ++
            [⟨name, category, hashHex filename ++ ".jpg"⟩])⟩ }
      else s
    else s

/-- Embedding of addItem from the earliest generation: a form-file error
gives 400; updateJson and saveImageToLocal are called for effect only
and the success message is returned unconditionally. -/
def addItemV1 (req : AddRequest) (s : FlatStore) (g : ImgStore) :
    HResult String × FlatStore × ImgStore :=
  match req.image with
  | none => (.err 400, s, g)
  | some (filename, bytes) =>
    (.ok ("item received: " ++ req.name),
     updateJsonV1 req.name req.category filename s,
     saveImageToLocal filename bytes g)

/-- Embedding of getItems from the earliest generation: failures to open
or read the flat file are returned to the framework, which surfaces
them as 500; an unparseable document silently yields the empty list. -/
def getItemsV1 (s : FlatStore) : HResult (List Item) :=
  match s.file with
  | none => .err 500
  | some f => if s.readOk then .ok f.items else .err 500

/-! ## Middle generation (`main.go`: flat file with validation) -/

/-- Embedding of updateJson from `main.go`: rejects filenames whose
`path.Ext` is not ".jpg", then reads, appends and rewrites the
document, propagating storage errors. The recorded image name is the
hash followed by the extension. -/
def updateJsonV2 (name category filename : String) (s : FlatStore) : AddResult FlatStore :=
  if pathExt filename ≠ ".jpg" then .invalidExt
  else match s.file with
    | none => .storage
    | some f =>
      if s.readOk then
        if s.writeOk then
          .ok { s with file := some ⟨some (f.items ++
              [⟨name, category, hashHex filename ++ pathExt filename⟩])⟩ }
        else .storage
      else .storage

/-- Embedding of addItem from `main.go`: a form-file error gives 400;
the error value returned by updateJson is discarded, saveImageToLocal
runs unconditionally, and the success message is always returned. -/
def addItemV2 (req : AddRequest) (s : FlatStore) (g : ImgStore) :
    HResult String × FlatStore × ImgStore :=
  match req.image with
  | none => (.err 400, s, g)
  | some (filename, bytes) =>
    let s2 := match updateJsonV2 req.name req.category filename s with
      | .ok s2 => s2
      | .invalidExt => s
      | .storage => s
    (.ok ("item received: " ++ req.name), s2, saveImageToLocal filename bytes g)

/-- Embedding of getItems shared by the middle and relational
generations: an open failure gives 400, a read failure 500, and an
unparseable document silently yields the empty list. -/
def getItemsV2 (s : FlatStore) : HResult (List Item) :=
  match s.file with
  | none => .err 400
  | some f => if s.readOk then .ok f.items else .err 500

/-- Scan the decoded list, comparing `strconv.Itoa` of each position
with the raw path parameter. -/
def findByItoa (items : List Item) (idx : Nat) (id : String) : Option Item :=
  match items with
  | [] => none
  | it :: rest => if Nat.repr idx = id then some it else findByItoa rest (idx + 1) id

/-- Embedding of getItemsByID from `main.go`: an open failure gives 400,
a read failure 500; otherwise the item whose zero-based position prints
as the parameter, or 404. -/
def getItemsByIdV2 (id : String) (s : FlatStore) : HResult Item :=
  match s.file with
  | none => .err 400
  | some f =>
    if s.readOk then
      match findByItoa f.items 0 id with
      | some it => .ok it
      | none => .err 404
    else .err 500

/-! ## Relational generation (`part_001`: sqlite) -/

/-- Embedding of addItemToDatabase: rejects filenames whose `path.Ext`
is not ".jpg", fails if the database cannot be opened or the table
created, then inserts — discarding any error of the INSERT itself. -/
def addItemToDatabase (name category filename : String) (db : DBStore) : AddResult DBStore :=
  if pathExt filename ≠ ".jpg" then .invalidExt
  else if ¬ db.openOk then .storage
  else if db.insertOk then
    .ok { db with
          rows := db.rows ++ [⟨db.nextId, name, category, hashHex filename ++ ".jpg"⟩],
          nextId := db.nextId + 1 }
  else .ok db

/-- Embedding of addItem from the relational generation: a form-file
error gives 400; any error from addItemToDatabase is surfaced as 500;
otherwise the image is saved best-effort and success returned. -/
def addItemV3 (req : AddRequest) (st : SysV3) : HResult String × SysV3 :=
  match req.image with
  | none => (.err 400, st)
  | some (filename, bytes) =>
    match addItemToDatabase req.name req.category filename st.db with
    | .ok db2 =>
      (.ok ("item received: " ++ req.name),
       { st with db := db2, imgs := saveImageToLocal filename bytes st.imgs })
    | .invalidExt => (.err 500, st)
    | .storage => (.err 500, st)

/-- The list endpoint of the relational generation still reads items.json. -/
def getItemsV3 (st : SysV3) : HResult (List Item) :=
  getItemsV2 st.json

/-- Embedding of getItemByID from the relational generation: a failure
to open the database is returned to the framework (500); the row whose
INTEGER primary key equals the parameter under the numeric
affinity rules of sqlite is scanned — ErrNoRows gives 404, any other scan failure
500. -/
def getItemByIdV3 (id : String) (db : DBStore) : HResult DBItem :=
  if ¬ db.openOk then .err 500
  else match db.rows.find? (fun r => Nat.repr r.id == id) with
    | none => .err 404
    | some r => if db.scanOk then .ok r else .err 500

/-- Embedding of searchItems: the open error is only logged; a failing
SELECT gives 500; rows are filtered by a LIKE pattern enclosing the keyword in percent signs; a scan
failure surfaces as 500 at the first matching row. -/
def searchItems (keyword : String) (db : DBStore) : HResult (List DBItem) :=
  if ¬ db.queryOk then .err 500
  else
    let ms := db.rows.filter (fun r => likeMatch ("%" ++ keyword ++ "%").data r.name.data)
    if ¬ db.scanOk ∧ ms ≠ [] then .err 500
    else .ok ms

/-- A sequence of add requests against the relational generation. -/
def applyAdds (reqs : List AddRequest) (st : SysV3) : SysV3 :=
  reqs.foldl (fun s r => (addItemV3 r s).2) st

/-! # Theorems

## Decimal printing: `Nat.repr` agrees with the structural printer -/

theorem digitChar_toNat {k : Nat} (h : k < 10) :
    (Nat.digitChar k).toNat = 48 + k := by
  interval_cases k <;> rfl

theorem decVal_go (l : List Char) (a : Nat) :
    List.foldl (fun a c => a * 10 + (c.toNat - 48)) a l =
      a * 10 ^ l.length + decVal l := by
  induction l generalizing a with
  | nil => simp [decVal]
  | cons c t ih =>
    have h1 := ih (a * 10 + (c.toNat - 48))
    have h2 := ih (0 * 10 + (c.toNat - 48))
    simp only [List.foldl_cons, decVal] at h1 h2 ⊢
    rw [h1, h2]
    simp only [List.length_cons, pow_succ]
    ring

theorem decVal_decRepr (n : Nat) : decVal (decRepr n) = n := by
  induction n using Nat.strong_induction_on with
  | _ n ih =>
    rw [decRepr]
    by_cases h : n < 10
    · simp [h, decVal, digitChar_toNat h]
    · simp only [h, dite_false]
      have hd : n / 10 < n := Nat.div_lt_self (by omega) (by omega)
      simp only [decVal, List.foldl_append, List.foldl_cons, List.foldl_nil]
      have := decVal_go (decRepr (n / 10)) 0
      simp only [decVal] at this
      have hrec := ih (n / 10) hd
      simp only [decVal] at hrec
      rw [hrec, digitChar_toNat (Nat.mod_lt n (by omega))]
      omega

theorem decRepr_injective {m n : Nat} (h : decRepr m = decRepr n) : m = n := by
  have := decVal_decRepr m
  rw [h, decVal_decRepr n] at this
  omega

theorem toDigitsCore_eq_decRepr :
    ∀ (fuel n : Nat) (acc : List Char), n < fuel →
      Nat.toDigitsCore 10 fuel n acc = decRepr n ++ acc := by
  intro fuel
  induction fuel with
  | zero => intro n acc h; omega
  | succ f ih =>
    intro n acc h
    rw [Nat.toDigitsCore]
    by_cases hz : n / 10 = 0
    · have hlt : n < 10 := by omega
      rw [if_pos hz, decRepr]
      simp [hlt, Nat.mod_eq_of_lt hlt]
    · rw [if_neg hz]
      have hn0 : n ≠ 0 := by
        intro hc; subst hc; simp at hz
      have hdlt : n / 10 < n := Nat.div_lt_self (by omega) (by omega)
      rw [ih (n / 10) _ (by omega)]
      have h10 : ¬ n < 10 := by
        intro hc
        exact hz (Nat.div_eq_of_lt hc)
      conv_rhs => rw [decRepr]
      simp [h10]

theorem repr_eq_decRepr (n : Nat) : Nat.repr n = String.mk (decRepr n) := by
  show (Nat.toDigits 10 n).asString = String.mk (decRepr n)
  rw [Nat.toDigits, toDigitsCore_eq_decRepr (n + 1) n [] (by omega)]
  simp [List.asString]

theorem natRepr_injective {m n : Nat} (h : Nat.repr m = Nat.repr n) : m = n := by
  rw [repr_eq_decRepr, repr_eq_decRepr] at h
  exact decRepr_injective (by injection h)

/-! ## Extension lemmas: `strings.HasSuffix ".jpg"` agrees with `path.Ext` -/

theorem extLoop_gpj (r acc : List Char) :
    extLoop acc ('g' :: 'p' :: 'j' :: '.' :: r) = '.' :: 'j' :: 'p' :: 'g' :: acc := by
  simp [extLoop]

theorem pathExt_of_endsWithJpg {s : String} (h : endsWithJpg s = true) :
    pathExt s = ".jpg" := by
  have hsuf : jpgExt <:+ s.data := by
    simpa [endsWithJpg, List.isSuffixOf_iff_suffix] using h
  obtain ⟨t, ht⟩ := hsuf
  have hrev : s.data.reverse = 'g' :: 'p' :: 'j' :: '.' :: t.reverse := by
    rw [← ht]
    simp [jpgExt]
  rw [pathExt, hrev, extLoop_gpj]

theorem extLoop_eq_dot (rl : List Char) :
    ∀ (acc res : List Char), extLoop acc rl = '.' :: res →
      ∃ mid rest, rl = mid ++ '.' :: rest ∧ ('/' ∉ mid ∧ '.' ∉ mid) ∧
        res = mid.reverse ++ acc := by
  induction rl with
  | nil => intro acc res h; simp [extLoop] at h
  | cons c r ih =>
    intro acc res h
    by_cases hc : c = '/'
    · subst hc; simp [extLoop] at h
    · by_cases hd : c = '.'
      · subst hd
        simp [extLoop] at h
        exact ⟨[], r, by simp, by simp, by simpa using h.symm⟩
      · rw [extLoop, if_neg hc, if_neg hd] at h
        obtain ⟨mid, rest, h1, ⟨h2, h3⟩, h4⟩ := ih (c :: acc) res h
        refine ⟨c :: mid, rest, by simp [h1], ⟨?_, ?_⟩, by simp [h4]⟩
        · simp only [List.mem_cons, not_or]
          exact ⟨fun hh => hc hh.symm, h2⟩
        · simp only [List.mem_cons, not_or]
          exact ⟨fun hh => hd hh.symm, h3⟩

theorem endsWithJpg_of_pathExt {s : String} (h : pathExt s = ".jpg") :
    endsWithJpg s = true := by
  have hx : extLoop [] s.data.reverse = ['.', 'j', 'p', 'g'] := by
    have := congrArg String.data h
    simpa [pathExt] using this
  obtain ⟨mid, rest, h1, _, h4⟩ := extLoop_eq_dot s.data.reverse [] _ hx
  have hmid : mid = ['g', 'p', 'j'] := by
    have : mid.reverse = ['j', 'p', 'g'] := by simpa using h4.symm
    simpa using congrArg List.reverse this
  subst hmid
  have hdata : s.data = rest.reverse ++ ['.', 'j', 'p', 'g'] := by
    have := congrArg List.reverse h1
    simpa using this
  simp [endsWithJpg, List.isSuffixOf_iff_suffix, hdata, jpgExt]

/-! ## Path cleaning lemmas -/

theorem splitSegs_no_slash {l : List Char} (h : '/' ∉ l) : splitSegs l = [l] := by
  induction l with
  | nil => rfl
  | cons c r ih =>
    have hc : ¬ c = '/' := fun hh => h (hh ▸ List.mem_cons_self c r)
    have hr : '/' ∉ r := fun hh => h (List.mem_cons_of_mem c hh)
    simp [splitSegs, ih hr, hc]

theorem splitSegs_images {p : List Char} (h : '/' ∉ p) :
    splitSegs ('i' :: 'm' :: 'a' :: 'g' :: 'e' :: 's' :: '/' :: p) =
      [['i', 'm', 'a', 'g', 'e', 's'], p] := by
  simp [splitSegs, splitSegs_no_slash h]

theorem splitSegs_ddimages {p : List Char} (h : '/' ∉ p) :
    splitSegs ('.' :: '.' :: '/' :: 'i' :: 'm' :: 'a' :: 'g' :: 'e' :: 's' :: '/' :: p) =
      [['.', '.'], ['i', 'm', 'a', 'g', 'e', 's'], p] := by
  simp [splitSegs, splitSegs_no_slash h]

theorem processSegs_images {p : List Char} (h0 : p ≠ []) (h1 : p ≠ ['.'])
    (h2 : p ≠ ['.', '.']) :
    processSegs false [] [['i', 'm', 'a', 'g', 'e', 's'], p] =
      [['i', 'm', 'a', 'g', 'e', 's'], p] := by
  simp [processSegs, h0, h1, h2]

theorem processSegs_ddimages {p : List Char} (h0 : p ≠ []) (h1 : p ≠ ['.'])
    (h2 : p ≠ ['.', '.']) :
    processSegs false [] [['.', '.'], ['i', 'm', 'a', 'g', 'e', 's'], p] =
      [['.', '.'], ['i', 'm', 'a', 'g', 'e', 's'], p] := by
  simp [processSegs, h0, h1, h2]

theorem data_ne_nil {p : String} (h : p ≠ "") : p.data ≠ [] :=
  fun hd => h (String.ext (hd.trans rfl))

theorem data_ne_dot {p : String} (h : p ≠ ".") : p.data ≠ ['.'] :=
  fun hd => h (String.ext (hd.trans rfl))

theorem data_ne_dotdot {p : String} (h : p ≠ "..") : p.data ≠ ['.', '.'] :=
  fun hd => h (String.ext (hd.trans rfl))

theorem pathJoin_images {p : String} (h : '/' ∉ p.data)
    (h0 : p ≠ "") (h1 : p ≠ ".") (h2 : p ≠ "..") :
    pathJoin "images" p = "images/" ++ p := by
  rw [pathJoin, if_neg (by simp [h0]), if_neg (by simp), if_neg h0]
  have hdata : ("images" ++ "/" ++ p).data =
      'i' :: 'm' :: 'a' :: 'g' :: 'e' :: 's' :: '/' :: p.data := by
    simp [String.data_append]
  rw [pathClean]
  simp only [hdata]
  rw [splitSegs_images h]
  rw [show rootedStart ('i' :: 'm' :: 'a' :: 'g' :: 'e' :: 's' :: '/' :: p.data) = false
    from rfl]
  rw [processSegs_images (data_ne_nil h0) (data_ne_dot h1) (data_ne_dotdot h2)]
  simp only [joinSegs, Bool.false_eq_true, if_false]
  rw [if_neg (by simp)]
  apply String.ext
  simp [String.data_append]

theorem pathJoin_ddimages {p : String} (h : '/' ∉ p.data)
    (h0 : p ≠ "") (h1 : p ≠ ".") (h2 : p ≠ "..") :
    pathJoin "../images" p = "../images/" ++ p := by
  rw [pathJoin, if_neg (by simp [h0]), if_neg (by simp), if_neg h0]
  have hdata : ("../images" ++ "/" ++ p).data =
      '.' :: '.' :: '/' :: 'i' :: 'm' :: 'a' :: 'g' :: 'e' :: 's' :: '/' :: p.data := by
    simp [String.data_append]
  rw [pathClean]
  simp only [hdata]
  rw [splitSegs_ddimages h]
  rw [show rootedStart
      ('.' :: '.' :: '/' :: 'i' :: 'm' :: 'a' :: 'g' :: 'e' :: 's' :: '/' :: p.data) = false
    from rfl]
  rw [processSegs_ddimages (data_ne_nil h0) (data_ne_dot h1) (data_ne_dotdot h2)]
  simp only [joinSegs, Bool.false_eq_true, if_false]
  rw [if_neg (by simp)]
  apply String.ext
  simp [String.data_append]

theorem suffix_cons_ge {u w : List Char} {c : Char} (h : u.length ≤ w.length) :
    u <:+ c :: w ↔ u <:+ w := by
  constructor
  · rintro ⟨t, ht⟩
    match t, ht with
    | [], ht =>
      have := congrArg List.length ht
      simp at this
      omega
    | c2 :: t2, ht =>
      injection ht with h1 h2
      exact ⟨t2, h2⟩
  · rintro ⟨t, ht⟩
    exact ⟨c :: t, by simp [ht]⟩

theorem suffix_append_ge {u w : List Char} (v : List Char) (h : u.length ≤ w.length) :
    u <:+ v ++ w ↔ u <:+ w := by
  induction v with
  | nil => simp
  | cons c v2 ih =>
    rw [List.cons_append, suffix_cons_ge (by simp; omega)]
    exact ih

theorem jpg_suffix_shift (l : List Char) :
    jpgExt.isSuffixOf ('i' :: 'm' :: 'a' :: 'g' :: 'e' :: 's' :: '/' :: l) =
      jpgExt.isSuffixOf l := by
  by_cases hl : 4 ≤ l.length
  · rw [Bool.eq_iff_iff]
    rw [List.isSuffixOf_iff_suffix, List.isSuffixOf_iff_suffix]
    have := suffix_append_ge (u := jpgExt) ['i', 'm', 'a', 'g', 'e', 's', '/'] (w := l)
      (by simp [jpgExt]; omega)
    simpa using this
  · match l, hl with
    | [], _ => decide
    | [a], _ => simp [List.isSuffixOf, jpgExt, List.isPrefixOf]
    | [a, b], _ => simp [List.isSuffixOf, jpgExt, List.isPrefixOf]
    | [a, b, c], _ => simp [List.isSuffixOf, jpgExt, List.isPrefixOf]
    | a :: b :: c :: d :: t, hl => exact (hl (by simp)).elim

/-! ## Character and hex lemmas -/

theorem char_ofNat_valid {k : Nat} (h : Nat.isValidChar k) : (Char.ofNat k).toNat = k := by
  rw [Char.ofNat, dif_pos h]
  rfl

theorem char_ofNat_invalid {k : Nat} (h : ¬ Nat.isValidChar k) : (Char.ofNat k).toNat = 0 := by
  rw [Char.ofNat, dif_neg h]
  rfl

theorem hexDigit_ne_slash (n : Nat) : hexDigit n ≠ '/' := by
  intro h
  have ht := congrArg Char.toNat h
  rw [show Char.toNat '/' = 47 from rfl] at ht
  rw [hexDigit] at ht
  by_cases hn : n < 10
  · rw [if_pos hn, char_ofNat_valid (Or.inl (by omega))] at ht
    omega
  · rw [if_neg hn] at ht
    by_cases hv : Nat.isValidChar (87 + n)
    · rw [char_ofNat_valid hv] at ht
      omega
    · rw [char_ofNat_invalid hv] at ht
      omega

theorem slash_notin_bytesHex (bs : List Nat) : '/' ∉ (bytesHex bs).data := by
  show '/' ∉ concatMap byteHex bs
  induction bs with
  | nil => simp [concatMap]
  | cons b t ih =>
    simp only [concatMap, List.mem_append, not_or]
    refine ⟨?_, ih⟩
    simp only [byteHex, List.mem_cons, List.not_mem_nil, or_false, not_or]
    exact ⟨fun hh => hexDigit_ne_slash _ hh.symm, fun hh => hexDigit_ne_slash _ hh.symm⟩

theorem endsWithJpg_append (x : String) : endsWithJpg (x ++ ".jpg") = true := by
  simp only [endsWithJpg, List.isSuffixOf_iff_suffix, String.data_append]
  exact ⟨x.data, rfl⟩

theorem endsWithJpg_ne_trivial {p : String} (h : endsWithJpg p = true) :
    p ≠ "" ∧ p ≠ "." ∧ p ≠ ".." := by
  refine ⟨?_, ?_, ?_⟩ <;> intro hp <;> subst hp <;> revert h <;> decide

theorem slash_notin_hashJpg (f : String) : '/' ∉ (hashHex f ++ ".jpg").data := by
  rw [String.data_append]
  simp only [List.mem_append, not_or]
  constructor
  · exact slash_notin_bytesHex _
  · decide

/-! ## LIKE matching lemmas -/

theorem likeMatch_pct (t : List Char) : likeMatch ['%'] t = true := by
  induction t with
  | nil => rw [likeMatch.eq_def]; simp; rw [likeMatch.eq_def]
  | cons c ts ih =>
    rw [likeMatch.eq_def]
    simp only [reduceIte]
    rw [ih]
    simp

theorem likeMatch_pctpct (t : List Char) : likeMatch ['%', '%'] t = true := by
  rw [likeMatch.eq_def]
  simp only [reduceIte]
  rw [likeMatch_pct]
  simp

/-! ## Positional and keyed lookup lemmas -/

theorem findByItoa_repr (l : List Item) (k n : Nat) :
    findByItoa l k (Nat.repr (k + n)) = l[n]? := by
  induction l generalizing k n with
  | nil => simp [findByItoa]
  | cons it rest ih =>
    cases n with
    | zero =>
      rw [findByItoa]
      simp
    | succ m =>
      rw [findByItoa, if_neg (fun hh => by have := natRepr_injective hh; omega)]
      have := ih (k + 1) m
      rw [show k + 1 + m = k + (m + 1) from by omega] at this
      rw [this]
      simp

theorem find?_eq_of_unique {p : DBItem → Bool} {l : List DBItem} {r0 : DBItem}
    (hmem : r0 ∈ l) (hp : p r0 = true) (huniq : ∀ r ∈ l, p r = true → r = r0) :
    l.find? p = some r0 := by
  induction l with
  | nil => simp at hmem
  | cons a t ih =>
    by_cases hpa : p a = true
    · rw [List.find?_cons_of_pos _ hpa]
      rw [huniq a (List.mem_cons_self a t) hpa]
    · rw [List.find?_cons_of_neg _ (by simp [hpa])]
      have hmem2 : r0 ∈ t := by
        rcases List.mem_cons.mp hmem with h | h
        · exact absurd (h ▸ hp) hpa
        · exact h
      exact ih hmem2 (fun r hr hpr => huniq r (List.mem_cons_of_mem a hr) hpr)

/-! ## Store-shape lemmas -/

theorem updateJsonV2_ok {name cat f : String} {s : FlatStore} {fl : FlatFileJson}
    (hext : endsWithJpg f = true) (hfile : s.file = some fl) (hr : s.readOk = true)
    (hw : s.writeOk = true) :
    updateJsonV2 name cat f s = .ok { s with file := some ⟨some (fl.items ++
      [⟨name, cat, hashHex f ++ ".jpg"⟩])⟩ } := by
  have he := pathExt_of_endsWithJpg hext
  rw [updateJsonV2, if_neg (by simp [he]), hfile]
  simp [hr, hw, he]

theorem addItemV3_json (req : AddRequest) (st : SysV3) :
    ((addItemV3 req st).2).json = st.json := by
  rcases req with ⟨name, cat, img⟩
  cases img with
  | none => rfl
  | some fb =>
    rcases fb with ⟨f, b⟩
    rw [addItemV3]
    rcases h : addItemToDatabase name cat f st.db with db2 | _ | _ <;> simp [h]

/-! ## Auxiliary consequences of the extension check -/

theorem pathExt_ne_of_not_jpg {f : String} (h : endsWithJpg f = false) :
    pathExt f ≠ ".jpg" := by
  intro he
  rw [endsWithJpg_of_pathExt he] at h
  cases h

/-! ## Claim C1 -/

/-- C1: for every valid (name, category, imageFilename) ending in ".jpg",
add followed by list yields, in the flat-file generation, a catalog
containing an item whose imageFileName is the lowercase hex SHA-256 of
the filename followed by ".jpg"; in the relational generation the added
item never appears in list, because add writes the database while list
reads items.json (amended from the unconditional claim). -/
theorem addThenList_containsHashedItem :
    (∀ (name cat f : String) (s : FlatStore) (fl : FlatFileJson),
      endsWithJpg f = true → s.file = some fl → s.readOk = true → s.writeOk = true →
      ∃ s2, updateJsonV2 name cat f s = .ok s2 ∧
        ∃ items, getItemsV2 s2 = .ok items ∧
          ∃ it ∈ items, it.imageFileName = hashHex f ++ ".jpg") ∧
    (∀ (req : AddRequest) (st : SysV3),
      getItemsV3 (addItemV3 req st).2 = getItemsV3 st) := by
  constructor
  · intro name cat f s fl hjpg hfile hr hw
    refine ⟨_, updateJsonV2_ok hjpg hfile hr hw, ?_⟩
    refine ⟨fl.items ++ [⟨name, cat, hashHex f ++ ".jpg"⟩], ?_, ?_⟩
    · rw [getItemsV2]
      simp [hr, FlatFileJson.items]
    · exact ⟨⟨name, cat, hashHex f ++ ".jpg"⟩, by simp, rfl⟩
  · intro req st
    rw [getItemsV3, getItemsV3, addItemV3_json]

/-- C1 counterexample: in the relational generation, starting from an
empty catalog, adding "shoes.jpg" and then listing yields the empty
list, which contains no item with the hashed name. -/
theorem relationalAddThenList_missesItem :
    getItemsV3 (addItemV3 ⟨"shoes", "fashion", some ("shoes.jpg", [1])⟩
      ⟨⟨some ⟨some []⟩, true, true⟩, ⟨true, true, true, true, [], 1⟩,
        ⟨[], true, true, true⟩⟩).2 = .ok [] ∧
    ¬ ∃ it ∈ ([] : List Item), it.imageFileName = hashHex "shoes.jpg" ++ ".jpg" := by
  exact ⟨rfl, by simp⟩

/-- C1 witness: the flat-file half applied to the concrete scenario of
the specification (shoes / fashion / shoes.jpg on an empty store). -/
theorem addThenList_containsHashedItem_witness :
    ∃ s2, updateJsonV2 "shoes" "fashion" "shoes.jpg" ⟨some ⟨some []⟩, true, true⟩ = .ok s2 ∧
      ∃ items, getItemsV2 s2 = .ok items ∧
        ∃ it ∈ items, it.imageFileName = hashHex "shoes.jpg" ++ ".jpg" :=
  addThenList_containsHashedItem.1 "shoes" "fashion" "shoes.jpg"
    ⟨some ⟨some []⟩, true, true⟩ ⟨some []⟩ (by decide) rfl rfl rfl

/-! ## Claim C2 -/

/-- C2: for an add request whose image filename does not end in ".jpg":
the earliest generation performs no check and appends the item anyway,
returning the success message; the middle generation leaves the catalog
unchanged but discards the validation error and still returns the
success message; the relational generation rejects with no mutation but
surfaces the failure as 500, not 400 (amended from "fails with a 400
and the catalog is unchanged"). -/
theorem addNonJpg_behaviour :
    (∀ (name cat f : String) (bytes : List Nat) (s : FlatStore) (fl : FlatFileJson)
      (g : ImgStore), s.file = some fl → s.readOk = true → s.writeOk = true →
      (addItemV1 ⟨name, cat, some (f, bytes)⟩ s g).1 = .ok ("item received: " ++ name) ∧
      (addItemV1 ⟨name, cat, some (f, bytes)⟩ s g).2.1.file =
        some ⟨some (fl.items ++ [⟨name, cat, hashHex f ++ ".jpg"⟩])⟩) ∧
    (∀ (name cat f : String) (bytes : List Nat) (s : FlatStore) (g : ImgStore),
      endsWithJpg f = false →
      (addItemV2 ⟨name, cat, some (f, bytes)⟩ s g).1 = .ok ("item received: " ++ name) ∧
      (addItemV2 ⟨name, cat, some (f, bytes)⟩ s g).2.1 = s) ∧
    (∀ (name cat f : String) (bytes : List Nat) (st : SysV3),
      endsWithJpg f = false →
      (addItemV3 ⟨name, cat, some (f, bytes)⟩ st).1 = .err 500 ∧
      (addItemV3 ⟨name, cat, some (f, bytes)⟩ st).2 = st) := by
  refine ⟨?_, ?_, ?_⟩
  · intro name cat f bytes s fl g hfile hr hw
    constructor
    · rfl
    · show (updateJsonV1 name cat f s).file = _
      rw [updateJsonV1, hfile]
      simp [hr, hw]
  · intro name cat f bytes s g hf
    have hne := pathExt_ne_of_not_jpg hf
    constructor
    · rfl
    · show (match updateJsonV2 name cat f s with
        | .ok s2 => s2
        | .invalidExt => s
        | .storage => s) = s
      rw [updateJsonV2, if_pos hne]
  · intro name cat f bytes st hf
    have hne := pathExt_ne_of_not_jpg hf
    have hdb : addItemToDatabase name cat f st.db = .invalidExt := by
      rw [addItemToDatabase, if_pos hne]
    constructor
    · show (addItemV3 ⟨name, cat, some (f, bytes)⟩ st).1 = .err 500
      rw [addItemV3]
      simp [hdb]
    · show (addItemV3 ⟨name, cat, some (f, bytes)⟩ st).2 = st
      rw [addItemV3]
      simp [hdb]

/-- C2 counterexample: in the middle generation an add with "x.png"
does not fail with 400 — the handler returns the 200 success
message (the catalog is nonetheless unchanged). -/
theorem addNonJpg_stillSucceeds :
    (addItemV2 ⟨"x", "c", some ("x.png", [1])⟩ ⟨some ⟨some []⟩, true, true⟩
      ⟨[], true, true, true⟩).1 = .ok "item received: x" ∧
    (HResult.ok "item received: x" : HResult String) ≠ .err 400 := by
  exact ⟨rfl, by decide⟩

/-- C2 witness: the three amended behaviours at concrete inputs. -/
theorem addNonJpg_behaviour_witness :
    ((addItemV1 ⟨"x", "c", some ("x.png", [1])⟩ ⟨some ⟨some []⟩, true, true⟩
        ⟨[], true, true, true⟩).1 = .ok "item received: x" ∧
      (addItemV1 ⟨"x", "c", some ("x.png", [1])⟩ ⟨some ⟨some []⟩, true, true⟩
        ⟨[], true, true, true⟩).2.1.file =
          some ⟨some ([] ++ [⟨"x", "c", hashHex "x.png" ++ ".jpg"⟩])⟩) ∧
    ((addItemV2 ⟨"x", "c", some ("x.png", [1])⟩ ⟨some ⟨some []⟩, true, true⟩
        ⟨[], true, true, true⟩).1 = .ok "item received: x" ∧
      (addItemV2 ⟨"x", "c", some ("x.png", [1])⟩ ⟨some ⟨some []⟩, true, true⟩
        ⟨[], true, true, true⟩).2.1 = ⟨some ⟨some []⟩, true, true⟩) ∧
    ((addItemV3 ⟨"x", "c", some ("x.png", [1])⟩
        ⟨⟨some ⟨some []⟩, true, true⟩, ⟨true, true, true, true, [], 1⟩,
          ⟨[], true, true, true⟩⟩).1 = .err 500 ∧
      (addItemV3 ⟨"x", "c", some ("x.png", [1])⟩
        ⟨⟨some ⟨some []⟩, true, true⟩, ⟨true, true, true, true, [], 1⟩,
          ⟨[], true, true, true⟩⟩).2 =
        ⟨⟨some ⟨some []⟩, true, true⟩, ⟨true, true, true, true, [], 1⟩,
          ⟨[], true, true, true⟩⟩) :=
  ⟨by
    have := addNonJpg_behaviour.1 "x" "c" "x.png" [1] ⟨some ⟨some []⟩, true, true⟩
      ⟨some []⟩ ⟨[], true, true, true⟩ rfl rfl rfl
    simpa [FlatFileJson.items] using this,
   addNonJpg_behaviour.2.1 "x" "c" "x.png" [1] ⟨some ⟨some []⟩, true, true⟩
     ⟨[], true, true, true⟩ (by decide),
   addNonJpg_behaviour.2.2 "x" "c" "x.png" [1]
     ⟨⟨some ⟨some []⟩, true, true⟩, ⟨true, true, true, true, [], 1⟩,
       ⟨[], true, true, true⟩⟩ (by decide)⟩

/-! ## Claim C3 -/

/-- C3: storage failures during add are not uniformly surfaced as 500:
in the middle generation every storage failure of updateJson is
discarded and the handler returns the 200 success message with the
catalog unchanged; in the relational generation a failure to open the
database (or create the table) does surface as 500, but a failure of
the INSERT itself is discarded and 200 returned with the table
unchanged (amended from "every storage failure yields 500"). -/
theorem addStorageFailure_behaviour :
    (∀ (name cat f : String) (bytes : List Nat) (s : FlatStore) (g : ImgStore),
      updateJsonV2 name cat f s = .storage →
      (addItemV2 ⟨name, cat, some (f, bytes)⟩ s g).1 = .ok ("item received: " ++ name) ∧
      (addItemV2 ⟨name, cat, some (f, bytes)⟩ s g).2.1 = s) ∧
    (∀ (name cat f : String) (bytes : List Nat) (st : SysV3),
      endsWithJpg f = true → st.db.openOk = false →
      (addItemV3 ⟨name, cat, some (f, bytes)⟩ st).1 = .err 500) ∧
    (∀ (name cat f : String) (bytes : List Nat) (st : SysV3),
      endsWithJpg f = true → st.db.openOk = true → st.db.insertOk = false →
      (addItemV3 ⟨name, cat, some (f, bytes)⟩ st).1 = .ok ("item received: " ++ name) ∧
      (addItemV3 ⟨name, cat, some (f, bytes)⟩ st).2.db.rows = st.db.rows) := by
  refine ⟨?_, ?_, ?_⟩
  · intro name cat f bytes s g hstore
    constructor
    · rfl
    · show (match updateJsonV2 name cat f s with
        | .ok s2 => s2
        | .invalidExt => s
        | .storage => s) = s
      rw [hstore]
  · intro name cat f bytes st hf hopen
    have he := pathExt_of_endsWithJpg hf
    have hdb : addItemToDatabase name cat f st.db = .storage := by
      rw [addItemToDatabase, if_neg (by simp [he]), if_pos (by simp [hopen])]
    rw [addItemV3]
    simp [hdb]
  · intro name cat f bytes st hf hopen hins
    have he := pathExt_of_endsWithJpg hf
    have hdb : addItemToDatabase name cat f st.db = .ok st.db := by
      rw [addItemToDatabase, if_neg (by simp [he]), if_neg (by simp [hopen]),
        if_neg (by simp [hins])]
    rw [addItemV3]
    simp [hdb]

/-- C3 counterexample: in the middle generation, an add with a valid
".jpg" name against an unopenable store returns the 200 success
message, not a 500. -/
theorem addStorageFailure_swallowed :
    (addItemV2 ⟨"a", "c", some ("a.jpg", [1])⟩ ⟨none, true, true⟩
      ⟨[], true, true, true⟩).1 = .ok "item received: a" ∧
    (HResult.ok "item received: a" : HResult String) ≠ .err 500 := by
  exact ⟨rfl, by decide⟩

/-- C3 witness: the three amended behaviours at concrete inputs. -/
theorem addStorageFailure_behaviour_witness :
    ((addItemV2 ⟨"a", "c", some ("a.jpg", [1])⟩ ⟨none, true, true⟩
        ⟨[], true, true, true⟩).1 = .ok "item received: a" ∧
      (addItemV2 ⟨"a", "c", some ("a.jpg", [1])⟩ ⟨none, true, true⟩
        ⟨[], true, true, true⟩).2.1 = ⟨none, true, true⟩) ∧
    (addItemV3 ⟨"a", "c", some ("a.jpg", [1])⟩
      ⟨⟨none, true, true⟩, ⟨false, true, true, true, [], 1⟩,
        ⟨[], true, true, true⟩⟩).1 = .err 500 ∧
    ((addItemV3 ⟨"a", "c", some ("a.jpg", [1])⟩
        ⟨⟨none, true, true⟩, ⟨true, false, true, true, [], 1⟩,
          ⟨[], true, true, true⟩⟩).1 = .ok "item received: a" ∧
      (addItemV3 ⟨"a", "c", some ("a.jpg", [1])⟩
        ⟨⟨none, true, true⟩, ⟨true, false, true, true, [], 1⟩,
          ⟨[], true, true, true⟩⟩).2.db.rows = []) :=
  ⟨addStorageFailure_behaviour.1 "a" "c" "a.jpg" [1] ⟨none, true, true⟩
      ⟨[], true, true, true⟩ rfl,
   addStorageFailure_behaviour.2.1 "a" "c" "a.jpg" [1]
     ⟨⟨none, true, true⟩, ⟨false, true, true, true, [], 1⟩, ⟨[], true, true, true⟩⟩
     (by decide) rfl,
   addStorageFailure_behaviour.2.2 "a" "c" "a.jpg" [1]
     ⟨⟨none, true, true⟩, ⟨true, false, true, true, [], 1⟩, ⟨[], true, true, true⟩⟩
     (by decide) rfl rfl⟩

/-! ## Claim C4 -/

/-- C4: once form parsing and catalog persistence succeed, failures of
saveImageToLocal (opening the part, creating the destination, copying
the bytes) are logged and swallowed and never change the response: the
handler still returns the success message, whatever the image-store
flags are (in both the middle and the relational generations). -/
theorem imageSaveFailure_swallowed :
    (∀ (name cat f : String) (bytes : List Nat) (st : SysV3) (db2 : DBStore),
      addItemToDatabase name cat f st.db = .ok db2 →
      (addItemV3 ⟨name, cat, some (f, bytes)⟩ st).1 =
        .ok ("item received: " ++ name)) ∧
    (∀ (name cat f : String) (bytes : List Nat) (json : FlatStore) (db : DBStore)
      (g1 g2 : ImgStore) (db2 : DBStore),
      addItemToDatabase name cat f db = .ok db2 →
      (addItemV3 ⟨name, cat, some (f, bytes)⟩ ⟨json, db, g1⟩).1 =
        (addItemV3 ⟨name, cat, some (f, bytes)⟩ ⟨json, db, g2⟩).1) ∧
    (∀ (name cat f : String) (bytes : List Nat) (s : FlatStore) (g : ImgStore),
      (addItemV2 ⟨name, cat, some (f, bytes)⟩ s g).1 =
        .ok ("item received: " ++ name)) := by
  refine ⟨?_, ?_, ?_⟩
  · intro name cat f bytes st db2 hdb
    rw [addItemV3]
    simp [hdb]
  · intro name cat f bytes json db g1 g2 db2 hdb
    rw [addItemV3, addItemV3]
    simp [hdb]
  · intro name cat f bytes s g
    rfl

/-- C4 witness: the response of a successful add is the success message
even when every image-store flag is down. -/
theorem imageSaveFailure_swallowed_witness :
    (addItemV3 ⟨"a", "c", some ("a.jpg", [1])⟩
      ⟨⟨none, true, true⟩, ⟨true, true, true, true, [], 1⟩,
        ⟨[], false, false, false⟩⟩).1 = .ok "item received: a" :=
  imageSaveFailure_swallowed.1 "a" "c" "a.jpg" [1]
    ⟨⟨none, true, true⟩, ⟨true, true, true, true, [], 1⟩, ⟨[], false, false, false⟩⟩
    ⟨true, true, true, true, [⟨1, "a", "c", hashHex "a.jpg" ++ ".jpg"⟩], 2⟩ rfl

/-! ## Claim C5 -/

/-- C5: getByID returns the matching item — the item at zero-based
position id in the flat-file generation, the row whose primary key
equals id in the relational generation — and 404 when no item matches;
a read failure after the flat file opens, and any non-ErrNoRows
database failure, surface as 500, but a failure to open the flat file
at all is surfaced as 400, not as a StorageError (amended: the claim
said every other read failure is a StorageError). -/
theorem getById_behaviour :
    (∀ (n : Nat) (s : FlatStore) (fl : FlatFileJson),
      s.file = some fl → s.readOk = true →
      ∀ hn : n < fl.items.length,
        getItemsByIdV2 (Nat.repr n) s = .ok (fl.items.get ⟨n, hn⟩)) ∧
    (∀ (n : Nat) (s : FlatStore) (fl : FlatFileJson),
      s.file = some fl → s.readOk = true → fl.items.length ≤ n →
      getItemsByIdV2 (Nat.repr n) s = .err 404) ∧
    (∀ (id : String) (s : FlatStore), s.file = none →
      getItemsByIdV2 id s = .err 400) ∧
    (∀ (id : String) (s : FlatStore) (fl : FlatFileJson),
      s.file = some fl → s.readOk = false → getItemsByIdV2 id s = .err 500) ∧
    (∀ (n : Nat) (db : DBStore) (r0 : DBItem),
      db.openOk = true → db.scanOk = true → r0 ∈ db.rows → r0.id = n →
      (∀ r ∈ db.rows, r.id = n → r = r0) →
      getItemByIdV3 (Nat.repr n) db = .ok r0) ∧
    (∀ (n : Nat) (db : DBStore),
      db.openOk = true → (∀ r ∈ db.rows, r.id ≠ n) →
      getItemByIdV3 (Nat.repr n) db = .err 404) ∧
    (∀ (id : String) (db : DBStore), db.openOk = false →
      getItemByIdV3 id db = .err 500) := by
  have hfind : ∀ (l : List Item) (n : Nat), findByItoa l 0 (Nat.repr n) = l[n]? := by
    intro l n
    have := findByItoa_repr l 0 n
    rwa [Nat.zero_add] at this
  refine ⟨?_, ?_, ?_, ?_, ?_, ?_, ?_⟩
  · intro n s fl hfile hr hn
    rw [getItemsByIdV2, hfile]
    simp only [hr, if_true]
    rw [hfind fl.items n, List.getElem?_eq_getElem hn]
    rfl
  · intro n s fl hfile hr hn
    rw [getItemsByIdV2, hfile]
    simp only [hr, if_true]
    rw [hfind fl.items n, List.getElem?_eq_none hn]
  · intro id s hfile
    rw [getItemsByIdV2, hfile]
  · intro id s fl hfile hr
    rw [getItemsByIdV2, hfile]
    simp [hr]
  · intro n db r0 hopen hscan hmem hid huniq
    rw [getItemByIdV3, if_neg (by simp [hopen])]
    have : db.rows.find? (fun r => Nat.repr r.id == Nat.repr n) = some r0 := by
      apply find?_eq_of_unique hmem
      · simp [hid]
      · intro r hr hpr
        exact huniq r hr (natRepr_injective (by simpa using hpr))
    rw [this]
    simp [hscan]
  · intro n db hopen hnone
    rw [getItemByIdV3, if_neg (by simp [hopen])]
    have : db.rows.find? (fun r => Nat.repr r.id == Nat.repr n) = none := by
      rw [List.find?_eq_none]
      intro r hr hpr
      exact hnone r hr (natRepr_injective (by simpa using hpr))
    rw [this]
  · intro id db hopen
    rw [getItemByIdV3, if_pos (by simp [hopen])]

/-- C5 counterexample: in the flat-file generation a failure to open
the backing file surfaces as 400, not as a 500 StorageError. -/
theorem getById_openFailure_is400 :
    getItemsByIdV2 "0" ⟨none, true, true⟩ = .err 400 ∧
    (HResult.err 400 : HResult Item) ≠ .err 500 := by
  exact ⟨rfl, by decide⟩

/-- C5 witness: the amended behaviours at concrete inputs. -/
theorem getById_behaviour_witness :
    getItemsByIdV2 (Nat.repr 1) ⟨some ⟨some [⟨"a", "b", "i"⟩, ⟨"c", "d", "j"⟩]⟩,
      true, true⟩ = .ok ⟨"c", "d", "j"⟩ ∧
    getItemsByIdV2 (Nat.repr 2) ⟨some ⟨some [⟨"a", "b", "i"⟩, ⟨"c", "d", "j"⟩]⟩,
      true, true⟩ = .err 404 ∧
    getItemByIdV3 (Nat.repr 7) ⟨true, true, true, true, [⟨7, "a", "b", "i"⟩], 8⟩ =
      .ok ⟨7, "a", "b", "i"⟩ ∧
    getItemByIdV3 (Nat.repr 9) ⟨true, true, true, true, [⟨7, "a", "b", "i"⟩], 8⟩ =
      .err 404 ∧
    getItemByIdV3 "7" ⟨false, true, true, true, [⟨7, "a", "b", "i"⟩], 8⟩ = .err 500 :=
  ⟨getById_behaviour.1 1 ⟨some ⟨some [⟨"a", "b", "i"⟩, ⟨"c", "d", "j"⟩]⟩, true, true⟩
      ⟨some [⟨"a", "b", "i"⟩, ⟨"c", "d", "j"⟩]⟩ rfl rfl (by decide),
   getById_behaviour.2.1 2 ⟨some ⟨some [⟨"a", "b", "i"⟩, ⟨"c", "d", "j"⟩]⟩, true, true⟩
      ⟨some [⟨"a", "b", "i"⟩, ⟨"c", "d", "j"⟩]⟩ rfl rfl (by decide),
   getById_behaviour.2.2.2.2.1 7 ⟨true, true, true, true, [⟨7, "a", "b", "i"⟩], 8⟩
      ⟨7, "a", "b", "i"⟩ rfl rfl (by decide) rfl (by decide),
   getById_behaviour.2.2.2.2.2.1 9 ⟨true, true, true, true, [⟨7, "a", "b", "i"⟩], 8⟩
      rfl (by decide),
   getById_behaviour.2.2.2.2.2.2 "7" ⟨false, true, true, true, [⟨7, "a", "b", "i"⟩], 8⟩
      rfl⟩

/-! ## Claim C6 -/

/-- C6: search returns exactly the rows whose name matches the SQL
pattern given by a percent sign, the keyword, and a percent sign under
LIKE semantics (no escaping of metacharacters); the empty keyword
matches every row; and an empty match result is the empty list, not an
error. -/
theorem search_like_semantics :
    ∀ (kw : String) (db : DBStore), db.queryOk = true → db.scanOk = true →
      searchItems kw db =
        .ok (db.rows.filter (fun r => likeMatch ("%" ++ kw ++ "%").data r.name.data)) ∧
      searchItems "" db = .ok db.rows ∧
      (db.rows.filter (fun r => likeMatch ("%" ++ kw ++ "%").data r.name.data) = [] →
        searchItems kw db = .ok []) := by
  intro kw db hq hs
  have hrun : ∀ k : String, searchItems k db =
      .ok (db.rows.filter (fun r => likeMatch ("%" ++ k ++ "%").data r.name.data)) := by
    intro k
    rw [searchItems, if_neg (by simp [hq])]
    rw [if_neg (by simp [hs])]
  refine ⟨hrun kw, ?_, ?_⟩
  · rw [hrun ""]
    have : ∀ r : DBItem, likeMatch ("%" ++ "" ++ "%").data r.name.data = true := by
      intro r
      exact likeMatch_pctpct r.name.data
    rw [List.filter_eq_self.mpr (fun r _ => this r)]
  · intro hempty
    rw [hrun kw, hempty]

/-- C6 witness: search over a two-row table with an empty and with a
non-matching keyword. -/
theorem search_like_semantics_witness :
    searchItems "x" ⟨true, true, true, true, [⟨1, "shoes", "f", "i"⟩], 2⟩ =
      .ok ([⟨1, "shoes", "f", "i"⟩].filter
        (fun r => likeMatch ("%" ++ "x" ++ "%").data r.name.data)) ∧
    searchItems "" ⟨true, true, true, true, [⟨1, "shoes", "f", "i"⟩], 2⟩ =
      .ok [⟨1, "shoes", "f", "i"⟩] ∧
    ([⟨1, "shoes", "f", "i"⟩].filter
        (fun r => likeMatch ("%" ++ "x" ++ "%").data r.name.data) = ([] : List DBItem) →
      searchItems "x" ⟨true, true, true, true, [⟨1, "shoes", "f", "i"⟩], 2⟩ = .ok []) :=
  search_like_semantics "x" ⟨true, true, true, true, [⟨1, "shoes", "f", "i"⟩], 2⟩ rfl rfl

/-! ## Claim C8 -/

/-- C8: no file-based generation returns an empty list for a merely
absent backing file: the earliest generation hard-errors (the raw open
error, surfaced as 500 by the framework) and the middle generation
returns 400; an existing but empty or unparseable file silently yields
the empty list; a read failure of an existing file is 500 (amended:
the claim said the non-earliest generations return an empty list for
an absent file). -/
theorem list_missingFile_behaviour :
    (∀ s : FlatStore, s.file = none → getItemsV1 s = .err 500) ∧
    (∀ s : FlatStore, s.file = none →
      getItemsV2 s = .err 400 ∧ ∀ l : List Item, getItemsV2 s ≠ .ok l) ∧
    (∀ s : FlatStore, s.file = some ⟨none⟩ → s.readOk = true →
      getItemsV2 s = .ok []) ∧
    (∀ (s : FlatStore) (fl : FlatFileJson), s.file = some fl → s.readOk = false →
      getItemsV2 s = .err 500) ∧
    (∀ (s : FlatStore) (fl : FlatFileJson), s.file = some fl → s.readOk = false →
      getItemsV1 s = .err 500) := by
  refine ⟨?_, ?_, ?_, ?_, ?_⟩
  · intro s hfile
    rw [getItemsV1, hfile]
  · intro s hfile
    rw [getItemsV2, hfile]
    exact ⟨rfl, fun l h => by cases h⟩
  · intro s hfile hr
    rw [getItemsV2, hfile]
    simp [hr, FlatFileJson.items]
  · intro s fl hfile hr
    rw [getItemsV2, hfile]
    simp [hr]
  · intro s fl hfile hr
    rw [getItemsV1, hfile]
    simp [hr]

/-- C8 counterexample: the middle generation returns 400, not an empty
list, when items.json is absent. -/
theorem list_missingFile_is400 :
    getItemsV2 ⟨none, true, true⟩ = .err 400 ∧
    (HResult.err 400 : HResult (List Item)) ≠ .ok [] := by
  exact ⟨rfl, by decide⟩

/-- C8 witness: the amended behaviours at concrete stores. -/
theorem list_missingFile_behaviour_witness :
    getItemsV1 ⟨none, true, true⟩ = .err 500 ∧
    getItemsV2 ⟨none, true, true⟩ = .err 400 ∧
    getItemsV2 ⟨some ⟨none⟩, true, true⟩ = .ok [] ∧
    getItemsV2 ⟨some ⟨some []⟩, false, true⟩ = .err 500 ∧
    getItemsV1 ⟨some ⟨some []⟩, false, true⟩ = .err 500 :=
  ⟨list_missingFile_behaviour.1 ⟨none, true, true⟩ rfl,
   (list_missingFile_behaviour.2.1 ⟨none, true, true⟩ rfl).1,
   list_missingFile_behaviour.2.2.1 ⟨some ⟨none⟩, true, true⟩ rfl rfl,
   list_missingFile_behaviour.2.2.2.1 ⟨some ⟨some []⟩, false, true⟩ ⟨some []⟩ rfl rfl,
   list_missingFile_behaviour.2.2.2.2 ⟨some ⟨some []⟩, false, true⟩ ⟨some []⟩ rfl rfl⟩

/-! ## Claim C7 -/

theorem getImg_reject {p : String} (fs : FileMap)
    (h : jpgExt.isSuffixOf (pathJoin "images" p).data = false) :
    getImg p fs = .err 400 := by
  rw [getImg]
  simp [h]

/-- C7: fetch rejects with 400 every single-segment name that does not
end in ".jpg"; for a ".jpg" name it serves the stored bytes when the
file exists under the image directory and otherwise serves the bytes
of the fixed default image instead of an error. -/
theorem getImg_behaviour :
    (∀ (p : String) (fs : FileMap), '/' ∉ p.data → endsWithJpg p = false →
      getImg p fs = .err 400) ∧
    (∀ (p : String) (fs : FileMap) (bytes : List Nat), '/' ∉ p.data →
      endsWithJpg p = true → fs.lookup ("images/" ++ p) = some bytes →
      getImg p fs = .ok bytes) ∧
    (∀ (p : String) (fs : FileMap) (d : List Nat), '/' ∉ p.data →
      endsWithJpg p = true → fs.lookup ("images/" ++ p) = none →
      fs.lookup "images/default.jpg" = some d →
      getImg p fs = .ok d) := by
  have hdata : ∀ p : String, ("images/" ++ p).data =
      'i' :: 'm' :: 'a' :: 'g' :: 'e' :: 's' :: '/' :: p.data := by
    intro p
    simp [String.data_append]
  refine ⟨?_, ?_, ?_⟩
  · intro p fs hslash hf
    by_cases h0 : p = ""
    · subst h0; exact getImg_reject fs (by decide)
    · by_cases h1 : p = "."
      · subst h1; exact getImg_reject fs (by decide)
      · by_cases h2 : p = ".."
        · subst h2; exact getImg_reject fs (by decide)
        · apply getImg_reject fs
          rw [pathJoin_images hslash h0 h1 h2, hdata p, jpg_suffix_shift]
          exact hf
  · intro p fs bytes hslash hjpg hlook
    obtain ⟨h0, h1, h2⟩ := endsWithJpg_ne_trivial hjpg
    have hJoin := pathJoin_images hslash h0 h1 h2
    have hcond : jpgExt.isSuffixOf (pathJoin "images" p).data = true := by
      rw [hJoin, hdata p, jpg_suffix_shift]
      exact hjpg
    rw [getImg]
    simp only [hcond, hJoin, hlook]
    simp
    have hc2 := hcond
    rw [hJoin, hdata p] at hc2
    exact List.isSuffixOf_iff_suffix.mp hc2
  · intro p fs d hslash hjpg hlook hdef
    obtain ⟨h0, h1, h2⟩ := endsWithJpg_ne_trivial hjpg
    have hJoin := pathJoin_images hslash h0 h1 h2
    have hcond : jpgExt.isSuffixOf (pathJoin "images" p).data = true := by
      rw [hJoin, hdata p, jpg_suffix_shift]
      exact hjpg
    rw [getImg]
    simp only [hcond, hJoin, hlook]
    rw [show pathJoin "images" "default.jpg" = "images/default.jpg" from rfl]
    simp only [hdef]
    simp
    have hc2 := hcond
    rw [hJoin, hdata p] at hc2
    exact List.isSuffixOf_iff_suffix.mp hc2

/-- C7 witness: the three behaviours at concrete names and stores. -/
theorem getImg_behaviour_witness :
    getImg "x.png" [("images/default.jpg", [9])] = .err 400 ∧
    getImg "a.jpg" [("images/a.jpg", [1, 2]), ("images/default.jpg", [9])] =
      .ok [1, 2] ∧
    getImg "nope.jpg" [("images/a.jpg", [1, 2]), ("images/default.jpg", [9])] =
      .ok [9] :=
  ⟨getImg_behaviour.1 "x.png" [("images/default.jpg", [9])] (by decide) (by decide),
   getImg_behaviour.2.1 "a.jpg" [("images/a.jpg", [1, 2]), ("images/default.jpg", [9])]
     [1, 2] (by decide) (by decide) (by decide),
   getImg_behaviour.2.2 "nope.jpg"
     [("images/a.jpg", [1, 2]), ("images/default.jpg", [9])] [9]
     (by decide) (by decide) (by decide) (by decide)⟩

/-! ## Claim C9 -/

/-- C9: the imageFileName recorded in the catalog and the file name
under which saveImageToLocal writes the blob are both the lowercase hex
SHA-256 of the original filename followed by ".jpg"; the name is a
function of the original filename alone (the bytes play no part in the
address), and a second upload with the same original filename
overwrites the prior blob under the same path. -/
theorem contentAddress_agreement :
    (∀ (name cat f : String) (s : FlatStore) (fl : FlatFileJson),
      endsWithJpg f = true → s.file = some fl → s.readOk = true → s.writeOk = true →
      updateJsonV2 name cat f s = .ok { s with file := some ⟨some (fl.items ++
        [⟨name, cat, hashHex f ++ ".jpg"⟩])⟩ }) ∧
    (∀ f : String, savePath f = "../images/" ++ (hashHex f ++ ".jpg")) ∧
    (∀ (f : String) (b : List Nat) (g : ImgStore),
      g.srcOpenOk = true → g.createOk = true → g.copyOk = true →
      (saveImageToLocal f b g).files.lookup (savePath f) = some b) ∧
    (∀ (f : String) (b1 b2 : List Nat) (g : ImgStore),
      g.srcOpenOk = true → g.createOk = true → g.copyOk = true →
      (saveImageToLocal f b2 (saveImageToLocal f b1 g)).files.lookup (savePath f) =
        some b2) := by
  have hsave : ∀ (f : String) (b : List Nat) (g : ImgStore),
      g.srcOpenOk = true → g.createOk = true → g.copyOk = true →
      saveImageToLocal f b g = { g with files := (savePath f, b) :: g.files } := by
    intro f b g h1 h2 h3
    rw [saveImageToLocal]
    simp [h1, h2, h3]
  refine ⟨?_, ?_, ?_, ?_⟩
  · intro name cat f s fl hjpg hfile hr hw
    exact updateJsonV2_ok hjpg hfile hr hw
  · intro f
    have hjpg := endsWithJpg_append (hashHex f)
    obtain ⟨h0, h1, h2⟩ := endsWithJpg_ne_trivial hjpg
    exact pathJoin_ddimages (slash_notin_hashJpg f) h0 h1 h2
  · intro f b g h1 h2 h3
    rw [hsave f b g h1 h2 h3]
    simp [List.lookup]
  · intro f b1 b2 g h1 h2 h3
    rw [hsave f b1 g h1 h2 h3]
    rw [hsave f b2 { g with files := (savePath f, b1) :: g.files } h1 h2 h3]
    simp [List.lookup]

/-- C9 witness: the agreement at the concrete filename "shoes.jpg". -/
theorem contentAddress_agreement_witness :
    updateJsonV2 "shoes" "fashion" "shoes.jpg" ⟨some ⟨some []⟩, true, true⟩ =
      .ok ⟨some ⟨some ([] ++ [⟨"shoes", "fashion", hashHex "shoes.jpg" ++ ".jpg"⟩])⟩,
        true, true⟩ ∧
    savePath "shoes.jpg" = "../images/" ++ (hashHex "shoes.jpg" ++ ".jpg") ∧
    (saveImageToLocal "shoes.jpg" [5] ⟨[], true, true, true⟩).files.lookup
      (savePath "shoes.jpg") = some [5] ∧
    (saveImageToLocal "shoes.jpg" [6]
      (saveImageToLocal "shoes.jpg" [5] ⟨[], true, true, true⟩)).files.lookup
      (savePath "shoes.jpg") = some [6] :=
  ⟨contentAddress_agreement.1 "shoes" "fashion" "shoes.jpg"
      ⟨some ⟨some []⟩, true, true⟩ ⟨some []⟩ (by decide) rfl rfl rfl,
   contentAddress_agreement.2.1 "shoes.jpg",
   contentAddress_agreement.2.2.1 "shoes.jpg" [5] ⟨[], true, true, true⟩ rfl rfl rfl,
   contentAddress_agreement.2.2.2 "shoes.jpg" [5] [6] ⟨[], true, true, true⟩
     rfl rfl rfl⟩

/-! ## Claim C10 -/

/-- C10: in the relational generation the output of list is unaffected
by any sequence of add operations: add writes the database and the
image directory only, never items.json, which is all list reads. -/
theorem relationalList_unaffectedByAdds :
    ∀ (reqs : List AddRequest) (st : SysV3),
      (applyAdds reqs st).json = st.json ∧
      getItemsV3 (applyAdds reqs st) = getItemsV3 st := by
  have hjson : ∀ (reqs : List AddRequest) (st : SysV3),
      (applyAdds reqs st).json = st.json := by
    intro reqs
    induction reqs with
    | nil => intro st; rfl
    | cons r rs ih =>
      intro st
      show (applyAdds rs (addItemV3 r st).2).json = st.json
      rw [ih, addItemV3_json]
  intro reqs st
  refine ⟨hjson reqs st, ?_⟩
  rw [getItemsV3, getItemsV3, hjson]

end Catalog
